import Mathlib

/-
Shallow embedding of the nmmd dispatcher library.

Source files embedded:
  src/nmmd/base.py   — the current module: Dispatcher (explicit, decorator
                       based registration) and TypenameDispatcher (name
                       convention based registration with a four tier
                       fallback chain), plus the dedupe decorator and the
                       gen_dispatch execution loop.
  src/dispatcher.py  — the legacy prior variant whose Dispatcher.dispatch
                       matches a call against registrations by exact key
                       equality through a flat dict.

Conventions of the embedding:
  * Handlers (Python bound methods) are identified by natural numbers; two
    getattr reads of the same attribute yield equal bound methods, so
    equality of these identifiers models Python == on bound methods.
  * Python classes are modelled by PyClass (identity cid plus __name__);
    isinstance is a boolean field of the token, since it is the
    interpreter's judgment, external to this library.
  * The modules __builtins__, types and collections are association lists
    from attribute name to class (Env).
  * dict / set state from CPython: dicts are association lists; the two
    set literals abc_types / interp_types are kept as lists in the order
    the source writes them.  CPython iterates a given set object in an
    unspecified but fixed order; the embedding fixes the literal order.
    No theorem below depends on which fixed order is chosen.
  * The CachedAttr collaborator (hercules) memoizes dispatch_data and
    method_keys per instance; it is modelled by Option valued caches in
    TState with explicit state passing.
  * A Python generator consumed by a caller is modelled by the list of
    values it yields followed by an optional exception that terminates
    the iteration (List Nat × Option PyErr).
-/

/-- A Python class object: identity plus its __name__ attribute
(the lookup name in a module may differ from __name__, e.g.
types.LambdaType.__name__ is the string function). -/
structure PyClass where
  cid : Nat
  name : String
deriving DecidableEq

/-- A dispatch token: the __name__ of its concrete type, the names of the
remaining entries of type(token).__mro__ (the mro always starts with the
concrete type itself), and the interpreter's isinstance judgment. -/
structure Token where
  tyName : String
  mroTail : List String
  isInst : PyClass → Bool

/-- The names of type(token).__mro__ in order, as produced by
TypenameDispatcher.gen_method_keys (base.py lines 263-269). -/
def Token.mroNames (t : Token) : List String :=
  t.tyName :: t.mroTail

/-- Attributes of the owning instance: attribute name to handler identity,
modelling getattr(self.inst, name). -/
abbrev Attrs := List (String × Nat)

/-- Association list lookup, modelling dict lookup / getattr with a
default of None. -/
def alook {α : Type} : List (String × α) → String → Option α
  | [], _ => none
  | p :: rest, key => if p.1 = key then some p.2 else alook rest key

/-- The interpreter modules the fallback tiers read:
__builtins__, types and collections (base.py lines 197-199). -/
structure Env where
  builtins : List (String × PyClass)
  typesMod : List (String × PyClass)
  collectionsMod : List (String × PyClass)

/-- The seen set threaded by the dedupe decorator; membership is all that
is observed, insertion is modelled by cons. -/
def dedupeAux {α : Type} [DecidableEq α] (seen : List α) : List α → List α
  | [] => []
  | x :: xs => if x ∈ seen then dedupeAux seen xs else x :: dedupeAux (x :: seen) xs

/-- The dedupe decorator of base.py lines 180-188: keep the first
occurrence of every yielded value, drop later repeats. -/
def dedupe {α : Type} [DecidableEq α] (l : List α) : List α :=
  dedupeAux [] l

/-- The abc_types set literal of base.py lines 201-218, in source order. -/
def abc_types : List String :=
  ["Hashable", "Iterable", "Iterator", "Sized", "Container", "Callable",
   "Set", "MutableSet", "Mapping", "MutableMapping", "MappingView",
   "KeysView", "ItemsView", "ValuesView", "Sequence", "MutableSequence",
   "ByteString"]

/-- The interp_types set literal of base.py lines 220-235, in source order. -/
def interp_types : List String :=
  ["BuiltinFunctionType", "BuiltinMethodType", "CodeType",
   "DynamicClassAttribute", "FrameType", "FunctionType", "GeneratorType",
   "GetSetDescriptorType", "LambdaType", "MappingProxyType",
   "MemberDescriptorType", "MethodType", "ModuleType", "SimpleNamespace",
   "TracebackType"]

/-- Python str.startswith over the underlying character lists. -/
def charsStart : List Char → List Char → Bool
  | [], _ => true
  | _ :: _, [] => false
  | p :: ps, c :: cs => p == c && charsStart ps cs

/-- TypenameDispatcher.prepare (base.py lines 253-261): scan the instance
attributes for names starting with the method naming convention marker
(the default, and the one the source caches, is the string handle_) and
map the stripped remainder (name.replace of the leading marker, i.e.
dropping its 7 characters) to the attribute value. -/
def tn_prepare (attrs : Attrs) : List (String × Nat) :=
  attrs.filterMap (fun p =>
    if charsStart (("handle_").toList) (p.1.toList)
    then some (String.mk (p.1.toList.drop 7), p.2) else none)

/-- TypenameDispatcher.check_basetype (base.py lines 297-306): nothing if
the module lookup produced no class or the token is not an instance of it;
otherwise try the lookup name and the class's own __name__, yielding any
handler attribute found live on the instance. -/
def check_basetype (attrs : Attrs) (tok : Token) (basetypeName : String) :
    Option PyClass → List Nat
  | none => []
  | some bt =>
    if tok.isInst bt then
      [basetypeName, bt.name].filterMap (fun n => alook attrs ("handle_" ++ n))
    else []

/-- Tier 1 of TypenameDispatcher.gen_methods (base.py lines 278-281):
walk the mro names and yield the dispatch_data entry of every name
present. -/
def mro_tier (data : List (String × Nat)) (tok : Token) : List Nat :=
  (Token.mroNames tok).filterMap (fun k => alook data k)

/-- Tier 2 of gen_methods (base.py lines 284-287): look the concrete type
name up in __builtins__ and check it as a basetype. -/
def builtin_tier (e : Env) (attrs : Attrs) (tok : Token) : List Nat :=
  check_basetype attrs tok tok.tyName (alook e.builtins tok.tyName)

/-- Tier 3 of gen_methods (base.py lines 289-291): for every name in
method_keys ∩ interp_types, check the types module class as a basetype.
The intersection is a fresh CPython set; its iteration order is fixed per
process and modelled here by the order of the interp_types literal. -/
def interp_tier (e : Env) (attrs : Attrs) (keys : List String) (tok : Token) : List Nat :=
  ((interp_types.filter (fun n => keys.contains n)).map
    (fun n => check_basetype attrs tok n (alook e.typesMod n))).flatten

/-- Tier 4 of gen_methods (base.py lines 293-295): for every name in
method_keys ∩ abc_types, check the collections module class as a
basetype. -/
def abc_tier (e : Env) (attrs : Attrs) (keys : List String) (tok : Token) : List Nat :=
  ((abc_types.filter (fun n => keys.contains n)).map
    (fun n => check_basetype attrs tok n (alook e.collectionsMod n))).flatten

/-- TypenameDispatcher.gen_methods (base.py lines 271-295): the four tiers
yielded in source order, wrapped by the dedupe decorator.  Takes the live
instance attributes (check_basetype reads them live), plus the cached
dispatch_data and method_keys values. -/
def tn_gen_methods (e : Env) (attrs : Attrs) (data : List (String × Nat))
    (keys : List String) (tok : Token) : List Nat :=
  dedupe (mro_tier data tok ++ builtin_tier e attrs tok
    ++ interp_tier e attrs keys tok ++ abc_tier e attrs keys tok)

/-- The result a handler call returns when it does not raise: either a
generator (isinstance(result, GeneratorType) in yield_from_handler) whose
yields are listed in order, or a single plain value. -/
inductive HRes where
  | gen : List Nat → HRes
  | val : Nat → HRes
deriving DecidableEq

/-- The exceptions observable at the dispatch boundary: DispatchError
carrying the reprs of the call arguments and of the instance (base.py
lines 125-126, 151-152), DispatchInterrupt (lines 24-26), and the
UnboundLocalError CPython raises for a local read before assignment. -/
inductive PyErr where
  | dispatchError : String → String → PyErr
  | interrupt : PyErr
  | unboundLocal : String → PyErr
deriving DecidableEq

/-- Dispatcher.yield_from_handler (base.py lines 171-177): yield from a
generator result, otherwise yield the single value. -/
def yield_from_handler : HRes → List Nat
  | HRes.gen l => l
  | HRes.val v => [v]

/-- Whether an Except value is a normal return. -/
def exOk {ε α : Type} : Except ε α → Bool
  | Except.ok _ => true
  | Except.error _ => false

/-- The body of the gen_dispatch loop (base.py lines 145-148) over an
already resolved candidate list: apply each handler in order, splice its
flattened result into the stream; a raising handler terminates the
stream with its exception (generator semantics: earlier yields were
already delivered). -/
def runHandlers (beh : Nat → Except PyErr HRes) : List Nat → List Nat × Option PyErr
  | [] => ([], none)
  | h :: hs =>
    match beh h with
    | Except.error er => ([], some er)
    | Except.ok r =>
      let rest := runHandlers beh hs
      (yield_from_handler r ++ rest.1, rest.2)

/-- The stream contribution of one non raising handler. -/
def okContribution (beh : Nat → Except PyErr HRes) (h : Nat) : List Nat :=
  match beh h with
  | Except.ok r => yield_from_handler r
  | Except.error _ => []

/-- Dispatcher.gen_dispatch (base.py lines 142-152) given the candidate
list gen_methods produced, for the TypenameDispatcher path where
gen_methods itself never raises.  The local variable dispatched is
assigned only inside the loop body, so when the candidate list is empty
the trailing read of it raises UnboundLocalError, not DispatchError. -/
def tn_dispatch_run (beh : Nat → Except PyErr HRes) (ms : List Nat) :
    List Nat × Option PyErr :=
  match ms with
  | [] => ([], some (PyErr.unboundLocal ("dispatched")))
  | _ :: _ => runHandlers beh ms

/-- Per instance state of a TypenameDispatcher: the live instance
attributes plus the two CachedAttr caches (dispatch_data, method_keys). -/
structure TState where
  attrs : Attrs
  ddCache : Option (List (String × Nat))
  mkCache : Option (List String)
deriving DecidableEq

/-- BaseDispatcher.dispatch_data through CachedAttr (base.py lines 43-52):
return the cached value if present, otherwise compute prepare() once and
store it. -/
def tn_dispatch_data (s : TState) : List (String × Nat) × TState :=
  match s.ddCache with
  | some d => (d, s)
  | none =>
    let d := tn_prepare s.attrs
    (d, { s with ddCache := some d })

/-- TypenameDispatcher.method_keys through CachedAttr (base.py lines
246-248): set(self.dispatch_data), i.e. the keys of the cached dispatch
data, computed once and stored. -/
def tn_method_keys (s : TState) : List String × TState :=
  match s.mkCache with
  | some k => (k, s)
  | none =>
    let p := tn_dispatch_data s
    let k := dedupe (p.1.map (fun q => q.1))
    (k, { p.2 with mkCache := some k })

/-- Stateful gen_methods: read dispatch_data and method_keys through
their caches (filling them on first use), then resolve candidates with
the live instance attributes. -/
def tn_gen_methods_st (e : Env) (s : TState) (tok : Token) : List Nat × TState :=
  let p := tn_dispatch_data s
  let q := tn_method_keys p.2
  (tn_gen_methods e q.2.attrs p.1 q.1 tok, q.2)

/-- Stateful gen_dispatch for a TypenameDispatcher: resolve, then run the
execution loop. -/
def tn_gen_dispatch_st (e : Env) (s : TState) (tok : Token)
    (beh : Nat → Except PyErr HRes) : (List Nat × Option PyErr) × TState :=
  let p := tn_gen_methods_st e s tok
  (tn_dispatch_run beh p.1, p.2)

/-- Convention based registration after construction: setattr of a new
handler attribute on the owning instance. -/
def tn_register (s : TState) (nm : String) (h : Nat) : TState :=
  { s with attrs := s.attrs ++ [(nm, h)] }

/-- Dispatcher.gen_methods of base.py lines 114-126 (explicit, decorator
based registrations): iterate the live registry of (serialized
registration key, method name) pairs and yield every entry — the stored
key is loaded and passed along but never compared with the call's key;
an empty registry raises DispatchError identifying the call and the
instance. -/
def base_gen_methods (attrs : Attrs) (reg : List (String × String))
    (callKey instRepr : String) : Except PyErr (List (Option Nat × String)) :=
  match reg with
  | [] => Except.error (PyErr.dispatchError callKey instRepr)
  | _ :: _ => Except.ok (reg.map (fun p => (alook attrs p.2, p.1)))

/-- Dispatcher.dispatch of the legacy variant (src/dispatcher.py lines
87-96): dispatch_data is dict(self.registry), so a later registration of
the same key shadows an earlier one (association list lookup on the
reversed registry), and the call's serialized key is matched by exact
dict key equality; a missing key raises DispatchError. -/
def legacy_dispatch (reg : List (String × Nat)) (callKey instRepr : String) :
    Except PyErr Nat :=
  match alook reg.reverse callKey with
  | some m => Except.ok m
  | none => Except.error (PyErr.dispatchError callKey instRepr)

/-- Membership in the deduplicated stream: exactly the yielded values not
already in the seen set. -/
theorem mem_dedupeAux {α : Type} [DecidableEq α] (x : α) (l : List α) :
    ∀ seen : List α, x ∈ dedupeAux seen l ↔ (x ∈ l ∧ x ∉ seen) := by
  induction l with
  | nil => intro seen; simp [dedupeAux]
  | cons y ys ih =>
    intro seen
    by_cases hy : y ∈ seen
    · simp only [dedupeAux, if_pos hy, ih seen, List.mem_cons]
      constructor
      · rintro ⟨h1, h2⟩
        exact ⟨Or.inr h1, h2⟩
      · rintro ⟨rfl | h1, h2⟩
        · exact absurd hy h2
        · exact ⟨h1, h2⟩
    · simp only [dedupeAux, if_neg hy, List.mem_cons, ih (y :: seen)]
      constructor
      · rintro (rfl | ⟨h1, h2⟩)
        · exact ⟨Or.inl rfl, hy⟩
        · exact ⟨Or.inr h1, fun hc => h2 (Or.inr hc)⟩
      · rintro ⟨rfl | h1, h2⟩
        · exact Or.inl rfl
        · by_cases hxy : x = y
          · exact Or.inl hxy
          · refine Or.inr ⟨h1, fun hc => ?_⟩
            rcases hc with h | h
            · exact hxy h
            · exact h2 h

/-- The deduplicated stream has no duplicates. -/
theorem nodup_dedupeAux {α : Type} [DecidableEq α] (l : List α) :
    ∀ seen : List α, (dedupeAux seen l).Nodup := by
  induction l with
  | nil => intro seen; simp [dedupeAux]
  | cons y ys ih =>
    intro seen
    by_cases hy : y ∈ seen
    · simpa [dedupeAux, if_pos hy] using ih seen
    · simp only [dedupeAux, if_neg hy]
      refine List.nodup_cons.mpr ⟨?_, ih (y :: seen)⟩
      intro hc
      exact ((mem_dedupeAux y ys (y :: seen)).mp hc).2 (List.mem_cons_self y seen)

/-- The seen set after a list of values has been processed. -/
def updSeen {α : Type} [DecidableEq α] (seen l : List α) : List α :=
  l.foldl (fun s x => if x ∈ s then s else x :: s) seen

/-- Membership of the updated seen set. -/
theorem mem_updSeen {α : Type} [DecidableEq α] (x : α) (l : List α) :
    ∀ seen : List α, x ∈ updSeen seen l ↔ (x ∈ seen ∨ x ∈ l) := by
  induction l with
  | nil => intro seen; simp [updSeen]
  | cons y ys ih =>
    intro seen
    by_cases hy : y ∈ seen
    · simp only [updSeen, List.foldl_cons, if_pos hy, List.mem_cons]
      rw [show List.foldl (fun s x => if x ∈ s then s else x :: s) seen ys
            = updSeen seen ys from rfl, ih seen]
      constructor
      · rintro (h | h)
        · exact Or.inl h
        · exact Or.inr (Or.inr h)
      · rintro (h | rfl | h)
        · exact Or.inl h
        · exact Or.inl hy
        · exact Or.inr h
    · simp only [updSeen, List.foldl_cons, if_neg hy, List.mem_cons]
      rw [show List.foldl (fun s x => if x ∈ s then s else x :: s) (y :: seen) ys
            = updSeen (y :: seen) ys from rfl, ih (y :: seen)]
      simp only [List.mem_cons]
      constructor
      · rintro ((rfl | h) | h)
        · exact Or.inr (Or.inl rfl)
        · exact Or.inl h
        · exact Or.inr (Or.inr h)
      · rintro (h | rfl | h)
        · exact Or.inl (Or.inr h)
        · exact Or.inl (Or.inl rfl)
        · exact Or.inr h

/-- Deduplicating a concatenation splits into the part contributed by the
first list and the part contributed by the second, the latter filtered
against everything the first already showed. -/
theorem dedupeAux_append {α : Type} [DecidableEq α] (a : List α) :
    ∀ (seen b : List α),
      dedupeAux seen (a ++ b) = dedupeAux seen a ++ dedupeAux (updSeen seen a) b := by
  induction a with
  | nil => intro seen b; simp [dedupeAux, updSeen]
  | cons y ys ih =>
    intro seen b
    by_cases hy : y ∈ seen
    · simp only [List.cons_append, dedupeAux, if_pos hy, updSeen, List.foldl_cons]
      exact ih seen b
    · simp only [List.cons_append, dedupeAux, if_neg hy, updSeen, List.foldl_cons]
      congr 1
      exact ih (y :: seen) b

/-- In dedupe (a ++ b), any survivor of a is listed strictly before any
element reachable only through b. -/
theorem dedupe_split_lt {α : Type} [DecidableEq α] (a b : List α) (x y : α)
    (hx : x ∈ a) (hy : y ∈ b) (hyn : y ∉ a) :
    (dedupe (a ++ b)).indexOf x < (dedupe (a ++ b)).indexOf y := by
  have hsplit : dedupe (a ++ b) = dedupeAux [] a ++ dedupeAux (updSeen [] a) b :=
    dedupeAux_append a [] b
  have hxu : x ∈ dedupeAux [] a := (mem_dedupeAux x a []).mpr ⟨hx, by simp⟩
  have hyu : y ∉ dedupeAux [] a := fun hc => hyn ((mem_dedupeAux y a []).mp hc).1
  have hyv : y ∈ dedupeAux (updSeen [] a) b := by
    refine (mem_dedupeAux y b (updSeen [] a)).mpr ⟨hy, fun hc => ?_⟩
    rcases (mem_updSeen y a []).mp hc with h | h
    · simp at h
    · exact hyn h
  rw [hsplit, List.indexOf_append_of_mem hxu, List.indexOf_append_of_not_mem hyu]
  calc (dedupeAux [] a).indexOf x
      < (dedupeAux [] a).length := List.indexOf_lt_length.mpr hxu
    _ ≤ (dedupeAux [] a).length + (dedupeAux (updSeen [] a) b).indexOf y :=
        Nat.le_add_right _ _

/-- The builtin int class. -/
def intClass : PyClass := ⟨0, "int"⟩

/-- The builtin bool class (a subclass of int). -/
def boolClass : PyClass := ⟨1, "bool"⟩

/-- An interpreter environment exposing int and bool in __builtins__. -/
def env0 : Env := ⟨[("int", intClass), ("bool", boolClass)], [], []⟩

/-- An int token: mro is int, object. -/
def tokIntV : Token := ⟨"int", ["object"], fun c => c.cid == 0⟩

/-- A bool token: mro is bool, int, object; an instance of both classes. -/
def tokBoolV : Token := ⟨"bool", ["int", "object"], fun c => c.cid == 0 || c.cid == 1⟩

/-- A handler behavior where every handler returns its own identity as a
single plain value. -/
def behEcho : Nat → Except PyErr HRes := fun h => Except.ok (HRes.val h)

/-- A dispatcher instance with a single handle_int convention handler and
cold caches. -/
def s9 : TState := ⟨[("handle_int", 5)], none, none⟩

/-- A dispatcher instance with no convention handlers at all. -/
def sEmpty : TState := ⟨[], none, none⟩

/-- A token whose mro is C, B, A (two proper ancestors). -/
def tokC : Token := ⟨"C", ["B", "A"], fun _ => false⟩

/-- Handlers registered on the two ancestors B and A of tokC. -/
def dataBA : List (String × Nat) := [("B", 5), ("A", 6)]

/-- An environment with empty interpreter modules. -/
def envEmpty : Env := ⟨[], [], []⟩

/-- A token that is an instance of every class, to exercise all tiers. -/
def tokSet : Token := ⟨"set", ["object"], fun _ => true⟩

/-- An environment where a builtin lookup name differs from the class
__name__, a types entry and a collections entry exist. -/
def env3 : Env :=
  ⟨[("set", ⟨10, "setB"⟩)], [("GeneratorType", ⟨11, "generator"⟩)],
   [("Hashable", ⟨12, "Hashable"⟩)]⟩

/-- Instance attributes hitting tiers 2, 3 and 4 with distinct handlers. -/
def attrs3 : Attrs := [("handle_setB", 2), ("handle_GeneratorType", 3), ("handle_Hashable", 4)]

/-- A dispatch table hitting tier 1 with yet another handler. -/
def data3 : List (String × Nat) := [("set", 1)]

/-- Cached method keys naming one interpreter structural and one abstract
capability category. -/
def keys3 : List String := ["GeneratorType", "Hashable"]

/-- C3: for every token, the candidate sequence of the type name resolver
lists the mro (type ancestry) tier candidates first, then the builtin
type name tier, then the interpreter structural tier, then the abstract
capability tier: any candidate of a later tier that is not already
reachable through the earlier tiers is listed strictly after every
candidate of the earlier tiers. -/
theorem c3_tier_order (e : Env) (attrs : Attrs) (data : List (String × Nat))
    (keys : List String) (tok : Token) (x y : Nat) :
    (x ∈ mro_tier data tok →
      y ∈ builtin_tier e attrs tok ++ interp_tier e attrs keys tok
            ++ abc_tier e attrs keys tok →
      y ∉ mro_tier data tok →
      (tn_gen_methods e attrs data keys tok).indexOf x
        < (tn_gen_methods e attrs data keys tok).indexOf y)
    ∧ (x ∈ mro_tier data tok ++ builtin_tier e attrs tok →
      y ∈ interp_tier e attrs keys tok ++ abc_tier e attrs keys tok →
      y ∉ mro_tier data tok ++ builtin_tier e attrs tok →
      (tn_gen_methods e attrs data keys tok).indexOf x
        < (tn_gen_methods e attrs data keys tok).indexOf y)
    ∧ (x ∈ mro_tier data tok ++ builtin_tier e attrs tok
            ++ interp_tier e attrs keys tok →
      y ∈ abc_tier e attrs keys tok →
      y ∉ mro_tier data tok ++ builtin_tier e attrs tok
            ++ interp_tier e attrs keys tok →
      (tn_gen_methods e attrs data keys tok).indexOf x
        < (tn_gen_methods e attrs data keys tok).indexOf y) := by
  refine ⟨?_, ?_, ?_⟩
  · intro hx hy hyn
    have h := dedupe_split_lt (mro_tier data tok)
      (builtin_tier e attrs tok ++ (interp_tier e attrs keys tok
        ++ abc_tier e attrs keys tok)) x y hx
      (by simpa [List.append_assoc] using hy) hyn
    simpa [tn_gen_methods, List.append_assoc] using h
  · intro hx hy hyn
    have h := dedupe_split_lt (mro_tier data tok ++ builtin_tier e attrs tok)
      (interp_tier e attrs keys tok ++ abc_tier e attrs keys tok) x y hx hy hyn
    simpa [tn_gen_methods, List.append_assoc] using h
  · intro hx hy hyn
    have h := dedupe_split_lt
      (mro_tier data tok ++ builtin_tier e attrs tok ++ interp_tier e attrs keys tok)
      (abc_tier e attrs keys tok) x y hx hy hyn
    simpa [tn_gen_methods, List.append_assoc] using h

/-- C3 witness: a concrete token and registrations producing one
candidate in each tier (handlers 1, 2, 3, 4), listed in tier order. -/
theorem c3_tier_order_witness :
    (tn_gen_methods env3 attrs3 data3 keys3 tokSet).indexOf 1
      < (tn_gen_methods env3 attrs3 data3 keys3 tokSet).indexOf 2 ∧
    (tn_gen_methods env3 attrs3 data3 keys3 tokSet).indexOf 2
      < (tn_gen_methods env3 attrs3 data3 keys3 tokSet).indexOf 3 ∧
    (tn_gen_methods env3 attrs3 data3 keys3 tokSet).indexOf 3
      < (tn_gen_methods env3 attrs3 data3 keys3 tokSet).indexOf 4 :=
  ⟨(c3_tier_order env3 attrs3 data3 keys3 tokSet 1 2).1
      (by decide) (by decide) (by decide),
   (c3_tier_order env3 attrs3 data3 keys3 tokSet 2 3).2.1
      (by decide) (by decide) (by decide),
   (c3_tier_order env3 attrs3 data3 keys3 tokSet 3 4).2.2
      (by decide) (by decide) (by decide)⟩

/-- C4: the resolved candidate sequence never lists the same handler
twice, so in multi mode (which invokes the candidates one by one in
sequence order) each distinct handler is invoked at most once, however
many tiers or category names reach it. -/
theorem c4_candidates_deduped (e : Env) (attrs : Attrs) (data : List (String × Nat))
    (keys : List String) (tok : Token) :
    (tn_gen_methods e attrs data keys tok).Nodup ∧
    ∀ h : Nat, (tn_gen_methods e attrs data keys tok).count h ≤ 1 := by
  have hn : (tn_gen_methods e attrs data keys tok).Nodup := nodup_dedupeAux _ _
  exact ⟨hn, fun h => List.nodup_iff_count_le_one.mp hn h⟩

/-- C5: when the first name along the token's mro that has a registered
handler is a, single mode dispatch invokes the handler stored under a —
the head of the candidate sequence, hence the first handler gen_dispatch
applies — and not the handler of any ancestor farther along the mro. -/
theorem c5_nearest_ancestor_wins (e : Env) (attrs : Attrs)
    (data : List (String × Nat)) (keys : List String) (tok : Token)
    (l1 l2 : List String) (a : String) (ha : Nat)
    (hmro : Token.mroNames tok = l1 ++ a :: l2)
    (hnone : ∀ x ∈ l1, alook data x = none)
    (hlook : alook data a = some ha) :
    (tn_gen_methods e attrs data keys tok).head? = some ha ∧
    ∀ b hb, b ∈ l2 → alook data b = some hb → hb ≠ ha →
      (tn_gen_methods e attrs data keys tok).head? ≠ some hb := by
  have htier : mro_tier data tok
      = ha :: l2.filterMap (fun k => alook data k) := by
    unfold mro_tier
    rw [hmro, List.filterMap_append, List.filterMap_eq_nil_iff.mpr hnone]
    simp [List.filterMap_cons, hlook]
  have hhead : (tn_gen_methods e attrs data keys tok).head? = some ha := by
    show (dedupe (mro_tier data tok ++ builtin_tier e attrs tok
      ++ interp_tier e attrs keys tok ++ abc_tier e attrs keys tok)).head? = some ha
    rw [htier]
    simp [dedupe, dedupeAux, List.cons_append]
  refine ⟨hhead, ?_⟩
  intro b hb _ _ hne hcontra
  rw [hhead] at hcontra
  exact hne (Option.some.inj hcontra).symm

/-- C5 witness: mro C, B, A with handlers on B (nearer) and A (farther);
the head candidate is B's handler 5, not A's handler 6. -/
theorem c5_nearest_ancestor_wins_witness :
    (tn_gen_methods envEmpty [] dataBA [] tokC).head? = some 5 ∧
    (tn_gen_methods envEmpty [] dataBA [] tokC).head? ≠ some 6 := by
  have h := c5_nearest_ancestor_wins envEmpty [] dataBA [] tokC
    ["C"] ["A"] "B" 5 rfl (by decide) rfl
  exact ⟨h.1, h.2 "A" 6 (by decide) rfl (by decide)⟩

/-- C6: yield_from_handler splices a generator result into the call's
stream element by element in the handler's own yield order, and wraps any
other result as exactly one element; consequently, when no handler
raises, the gen_dispatch stream is the in order concatenation of the per
handler flattened contributions. -/
theorem c6_results_flattened (l : List Nat) (v : Nat)
    (beh : Nat → Except PyErr HRes) (ms : List Nat) :
    yield_from_handler (HRes.gen l) = l ∧
    yield_from_handler (HRes.val v) = [v] ∧
    ((∀ h ∈ ms, exOk (beh h) = true) →
      runHandlers beh ms = ((ms.map (okContribution beh)).flatten, none)) := by
  refine ⟨rfl, rfl, ?_⟩
  intro hok
  induction ms with
  | nil => simp [runHandlers]
  | cons h hs ih =>
    have hh := hok h (List.mem_cons_self h hs)
    cases hbh : beh h with
    | error er => rw [hbh] at hh; simp [exOk] at hh
    | ok r =>
      have hrest := ih (fun x hx => hok x (List.mem_cons_of_mem h hx))
      simp [runHandlers, hbh, hrest, okContribution]

/-- A handler behavior where handler 1 returns a generator yielding 7
then 8, and every other handler returns the plain value 9. -/
def behGen : Nat → Except PyErr HRes := fun h =>
  if h == 1 then Except.ok (HRes.gen [7, 8]) else Except.ok (HRes.val 9)

/-- C6 witness: a generator producing handler followed by a plain value
handler: the stream is the generator's elements in order, then the plain
value. -/
theorem c6_results_flattened_witness :
    runHandlers behGen [1, 2] = ([7, 8, 9], none) := by
  have h := (c6_results_flattened [] 0 behGen [1, 2]).2.2 (by decide)
  rw [h]
  rfl

/-- C8: with registrations unchanged, an identical dispatch call repeated
on the identical token returns the identical ordered output and leaves
the instance state (attributes and both caches) unchanged: the resolver
and engine are deterministic functions of the registrations and the
call. -/
theorem c8_repeat_dispatch_deterministic (e : Env) (s : TState) (tok : Token)
    (beh : Nat → Except PyErr HRes) :
    tn_gen_dispatch_st e ((tn_gen_dispatch_st e s tok beh).2) tok beh
      = tn_gen_dispatch_st e s tok beh := by
  obtain ⟨a, dd, mk⟩ := s
  cases dd <;> cases mk <;>
    simp [tn_gen_dispatch_st, tn_gen_methods_st, tn_dispatch_data, tn_method_keys]

/-- C10: check_basetype contributes no candidate and never raises when
the backing module has no class under the category name (the lookup
passed in is None) or when the token is not an instance of the class; it
is total and returns the empty contribution in both cases. -/
theorem c10_check_basetype_guards (attrs : Attrs) (tok : Token) (nm : String) :
    check_basetype attrs tok nm none = [] ∧
    (∀ bt : PyClass, tok.isInst bt = false → check_basetype attrs tok nm (some bt) = []) := by
  refine ⟨rfl, ?_⟩
  intro bt hbt
  simp [check_basetype, hbt]

/-- C10 witness: a Sized category with no backing class contributes
nothing, and a backing class the token is not an instance of contributes
nothing. -/
theorem c10_check_basetype_guards_witness :
    check_basetype [] tokBoolV "Sized" none = [] ∧
    check_basetype [] tokBoolV "Sized" (some ⟨5, "Sized"⟩) = [] :=
  ⟨(c10_check_basetype_guards [] tokBoolV "Sized").1,
   (c10_check_basetype_guards [] tokBoolV "Sized").2 ⟨5, "Sized"⟩ rfl⟩

/-- C1: evaluation of the code at a zero candidate dispatch.  The base
Dispatcher raises DispatchError when its registry is empty (gen_methods,
base.py lines 123-126); but on the TypenameDispatcher path gen_methods
(lines 271-295) sets its dispatched flag without ever testing it and
raises nothing, so gen_dispatch (lines 142-152) reaches the read of its
own local dispatched, which the loop body never assigned — CPython
raises UnboundLocalError there, not the typed DispatchError the claim
requires. -/
theorem c1_zero_candidates_unbound_local :
    (tn_gen_dispatch_st env0 sEmpty tokIntV behEcho).1
      = ([], some (PyErr.unboundLocal ("dispatched"))) ∧
    (∀ attrs k i, base_gen_methods attrs [] k i
      = Except.error (PyErr.dispatchError k i)) := by
  exact ⟨by decide, fun _ _ _ => rfl⟩

/-- Helper: an association list lookup hit is an entry of the list. -/
theorem alook_mem {α : Type} (l : List (String × α)) (key : String) (v : α)
    (h : alook l key = some v) : (key, v) ∈ l := by
  induction l with
  | nil => simp [alook] at h
  | cons p rest ih =>
    by_cases hp : p.1 = key
    · simp only [alook, if_pos hp] at h
      have : p = (key, v) := by
        obtain ⟨p1, p2⟩ := p
        simp only at hp
        simp only [Option.some.injEq] at h
        rw [hp, h]
      rw [this] at *
      exact List.mem_cons_self _ _
    · simp only [alook, if_neg hp] at h
      exact List.mem_cons_of_mem _ (ih h)

/-- C2 counterexample: one explicit registration stored under key k1; a
dispatch call whose serialized key is k2 ≠ k1 still yields the stored
handler 7 (with its registration time arguments) as a method gen_dispatch
will apply — the current module's Dispatcher.gen_methods never compares
the stored key with the call's key. -/
theorem c2_key_equality_counterexample :
    base_gen_methods [("h", 7)] [("k1", "h")] "k2" "inst"
      = Except.ok [(some 7, "k1")] ∧
    ¬ (("k1" : String) = "k2") := by
  exact ⟨rfl, by decide⟩

/-- C2 amended: only the legacy variant (src/dispatcher.py) matches by
exact key equality — a handler it invokes was stored under precisely the
call's serialized key; the current module's explicit dispatcher yields
the same registered handlers whatever the call's key is (for a nonempty
registry the candidate list does not depend on the key at all). -/
theorem c2_exact_key_equality_amended :
    (∀ (reg : List (String × Nat)) (k i : String) (h : Nat),
      legacy_dispatch reg k i = Except.ok h → (k, h) ∈ reg) ∧
    (∀ (attrs : Attrs) (reg : List (String × String)) (i k k' : String),
      reg ≠ [] →
      base_gen_methods attrs reg k i = base_gen_methods attrs reg k' i) := by
  constructor
  · intro reg k i h hd
    unfold legacy_dispatch at hd
    cases hl : alook reg.reverse k with
    | none => rw [hl] at hd; exact Except.noConfusion hd
    | some m =>
      rw [hl] at hd
      have hm : m = h := Except.ok.inj hd
      rw [hm] at hl
      exact List.mem_reverse.mp (alook_mem _ _ _ hl)
  · intro attrs reg i k k' hne
    cases reg with
    | nil => exact absurd rfl hne
    | cons p rest => rfl

/-- C2 amended witness: the legacy dispatcher resolving key k1 returns
the handler stored under k1, and the current module's explicit candidate
list is the same for two different call keys. -/
theorem c2_exact_key_equality_amended_witness :
    ((("k1" : String), 7) ∈ [(("k1" : String), 7)]) ∧
    base_gen_methods [("h", 7)] [("k1", "h")] "a" "i"
      = base_gen_methods [("h", 7)] [("k1", "h")] "b" "i" :=
  ⟨c2_exact_key_equality_amended.1 [("k1", 7)] "k1" "i" 7 rfl,
   c2_exact_key_equality_amended.2 [("h", 7)] [("k1", "h")] "i" "a" "b" (by decide)⟩

/-- A handler behavior where handler 1 yields the value 10, handler 2
raises DispatchInterrupt, and every other handler yields 30. -/
def behInterrupt : Nat → Except PyErr HRes := fun h =>
  if h == 1 then Except.ok (HRes.val 10)
  else if h == 2 then Except.error PyErr.interrupt
  else Except.ok (HRes.val 30)

/-- C7 counterexample: with candidates 1, 2, 3 where handler 2 raises
DispatchInterrupt, the dispatch stream delivers 10 and then terminates
with the interrupt itself — nothing in gen_dispatch (base.py lines
142-152) catches DispatchInterrupt, so it propagates to the caller
instead of being swallowed into a normal success. -/
theorem c7_interrupt_counterexample :
    runHandlers behInterrupt [1, 2, 3] = ([10], some PyErr.interrupt) ∧
    ¬ ((runHandlers behInterrupt [1, 2, 3]).2 = none) := by
  exact ⟨rfl, by decide⟩

/-- C7 amended: a handler raising DispatchInterrupt does stop the
dispatch loop — no remaining candidate is invoked and the results
already yielded stand — but the interrupt then propagates to the caller
as an exception terminating the stream, rather than being swallowed at
the dispatch loop boundary. -/
theorem c7_interrupt_propagates_amended (beh : Nat → Except PyErr HRes)
    (pre : List Nat) (h : Nat) (rest : List Nat)
    (hok : ∀ x ∈ pre, exOk (beh x) = true)
    (hint : beh h = Except.error PyErr.interrupt) :
    runHandlers beh (pre ++ h :: rest)
      = ((pre.map (okContribution beh)).flatten, some PyErr.interrupt) := by
  revert hok
  induction pre with
  | nil => intro _; simp [runHandlers, hint]
  | cons p ps ih =>
    intro hok
    have hp := hok p (List.mem_cons_self p ps)
    cases hbp : beh p with
    | error er => rw [hbp] at hp; simp [exOk] at hp
    | ok r =>
      have hrest := ih (fun x hx => hok x (List.mem_cons_of_mem p hx))
      simp [runHandlers, hbp, hrest, okContribution]

/-- C7 amended witness: handler 1 yields 10, handler 2 interrupts,
handler 3 is never reached; the stream is 10 then the interrupt. -/
theorem c7_interrupt_propagates_amended_witness :
    runHandlers behInterrupt ([1] ++ 2 :: [3])
      = (([1].map (okContribution behInterrupt)).flatten, some PyErr.interrupt) :=
  c7_interrupt_propagates_amended behInterrupt [1] 2 [3] (by decide) rfl

/-- C9 counterexample: instance with one convention handler handle_int;
first dispatch of a bool token (filling both caches) yields handler 5;
registering handle_bool afterwards changes the very next identical
dispatch to yield 5 then 8, because check_basetype resolves handler
attributes live on the instance in the fallback tiers — a registration
added after first use does affect a later dispatch call. -/
theorem c9_late_registration_counterexample :
    (tn_gen_dispatch_st env0 s9 tokBoolV behEcho).1.1 = [5] ∧
    (tn_gen_dispatch_st env0
        (tn_register ((tn_gen_dispatch_st env0 s9 tokBoolV behEcho).2)
          "handle_bool" 8)
        tokBoolV behEcho).1.1 = [5, 8] ∧
    ¬ ((tn_gen_dispatch_st env0
        (tn_gen_dispatch_st env0 s9 tokBoolV behEcho).2
        tokBoolV behEcho).1.1
      = (tn_gen_dispatch_st env0
        (tn_register ((tn_gen_dispatch_st env0 s9 tokBoolV behEcho).2)
          "handle_bool" 8)
        tokBoolV behEcho).1.1) := by
  exact ⟨by decide, by decide, by decide⟩

/-- C9 amended: the dispatch table caches are indeed built at most once —
once dispatch_data or method_keys holds a cached value, every later
access returns exactly that value with the state unchanged — but
registrations added after the first use are not inert: a handler
attribute added to the instance afterwards is picked up live by the
fallback tiers of a later dispatch call ([5] before, [5, 8] after). -/
theorem c9_cache_once_live_attrs_amended :
    (∀ (s : TState) (d : List (String × Nat)),
      s.ddCache = some d → tn_dispatch_data s = (d, s)) ∧
    (∀ (s : TState) (k : List String),
      s.mkCache = some k → tn_method_keys s = (k, s)) ∧
    (tn_gen_dispatch_st env0 s9 tokBoolV behEcho).1.1 = [5] ∧
    (tn_gen_dispatch_st env0
        (tn_register ((tn_gen_dispatch_st env0 s9 tokBoolV behEcho).2)
          "handle_bool" 8)
        tokBoolV behEcho).1.1 = [5, 8] := by
  refine ⟨?_, ?_, by decide, by decide⟩
  · intro s d hd
    simp [tn_dispatch_data, hd]
  · intro s k hk
    simp [tn_method_keys, hk]

/-- C9 amended witness: a warm dispatch_data cache and a warm method_keys
cache are returned unchanged. -/
theorem c9_cache_once_live_attrs_amended_witness :
    tn_dispatch_data ⟨[], some [("int", 5)], none⟩
      = ([("int", 5)], ⟨[], some [("int", 5)], none⟩) ∧
    tn_method_keys ⟨[], none, some ["int"]⟩
      = (["int"], ⟨[], none, some ["int"]⟩) :=
  ⟨c9_cache_once_live_attrs_amended.1 ⟨[], some [("int", 5)], none⟩ [("int", 5)] rfl,
   c9_cache_once_live_attrs_amended.2.1 ⟨[], none, some ["int"]⟩ ["int"] rfl⟩
